import Mathlib

/-!
Shallow embedding of the `voleur` repository (snapshot extraction, catalog
and restore tool) together with proofs about the properties claimed of it.

Byte strings (Python `bytes`) are modelled as `List Nat` of byte values;
decoded text (Python `str`) as `List Char`.  All string literals appearing
in the source are ASCII, so `String.toList` composed with `Char.toNat`
gives exactly their byte encoding.
-/

namespace Voleur

/-- Byte encoding of an ASCII string literal (models a Python `bytes` literal). -/
def bytesOf (s : String) : List Nat := s.toList.map Char.toNat

/-- The bytes removed by Python `bytes.strip()`: space, tab, newline,
carriage return, vertical tab, form feed. -/
def isSpaceByte (b : Nat) : Bool :=
  b = 32 || b = 9 || b = 10 || b = 13 || b = 11 || b = 12

/-- Python `bytes.strip()`: removes ASCII whitespace from both ends. -/
def stripBytes (l : List Nat) : List Nat :=
  ((l.dropWhile isSpaceByte).reverse.dropWhile isSpaceByte).reverse

/-- Worker for `replaceBytes`, structurally recursive on the scanned list.
`skip` counts positions still inside an already-replaced occurrence (the
scan resumes after the matched pattern, making replacement
non-overlapping). -/
def replaceGo (pat rep : List Nat) : List Nat → Nat → List Nat
  | [], _ => []
  | _ :: xs, skip + 1 => replaceGo pat rep xs skip
  | x :: xs, 0 =>
    if pat.isPrefixOf (x :: xs) ∧ 0 < pat.length then
      rep ++ replaceGo pat rep xs (pat.length - 1)
    else
      x :: replaceGo pat rep xs 0

/-- Python `bytes.replace(pat, rep)`: replaces every occurrence of `pat`,
scanning left to right, non-overlapping. -/
def replaceBytes (pat rep s : List Nat) : List Nat := replaceGo pat rep s 0

/-- The fixup chain both `dumper._process_stdout_line` and
`writer._fix_insert_statement` apply to a recognized insert line, in
source order: `strip()`, qualify the table with `public.`, unquote
`'NULL'`, and rewrite the `+0000 UTC` offset to `+00`. -/
def fixupCore (l : List Nat) : List Nat :=
  replaceBytes (bytesOf "+0000 UTC") (bytesOf "+00")
    (replaceBytes (bytesOf "'NULL'") (bytesOf "NULL")
      (replaceBytes (bytesOf "INSERT INTO ") (bytesOf "INSERT INTO public.")
        (stripBytes l)))

/-- `dumper._process_stdout_line`: fixes one line of the export tool's
stdout.  A line starting with `INSERT INTO` goes through `fixupCore`; if
the result does not already end with `;`, the bytes `;\n` are appended
(nothing is appended when it does).  Other lines pass through unchanged. -/
def process_stdout_line (line : List Nat) : List Nat :=
  if (bytesOf "INSERT INTO").isPrefixOf line then
    if (bytesOf ";").isSuffixOf (fixupCore line) then fixupCore line
    else fixupCore line ++ bytesOf ";\n"
  else line

/-- `writer._fix_insert_statement`: the same fixups on the restore side,
except that the terminator `;` (when missing) and the trailing newline are
appended separately, so the newline is always present. -/
def fix_insert_statement (line : List Nat) : List Nat :=
  if (bytesOf "INSERT INTO").isPrefixOf line then
    (if (bytesOf ";").isSuffixOf (fixupCore line) then fixupCore line
     else fixupCore line ++ bytesOf ";") ++ bytesOf "\n"
  else line

/-! ## Data model (`models.py`) -/

/-- `models.Dump`: one extracted snapshot. -/
structure Dump where
  dump_id : String
  timestamp : String
  storage_url : String
deriving DecidableEq, Repr

/-- `models.Stash`: named registry of dumps and tags.  The Python `dict`
of tags is modelled as an insertion-ordered association list with unique
keys (`dict` semantics). -/
structure Stash where
  bucket : String
  tags : List (String × String) := []
  dumps : List Dump := []
deriving DecidableEq, Repr

/-- `Stash.get_dump`: resolve an identifier through the tag mapping first,
falling back to treating it as a literal dump id; return the first dump
with that id, or `none`. -/
def Stash.get_dump (s : Stash) (id_or_tag : String) : Option Dump :=
  let dump_id := (s.tags.lookup id_or_tag).getD id_or_tag
  (s.dumps.filter (fun d => d.dump_id = dump_id)).head?

/-- `Stash.add_dump`: append a freshly built dump.  The generated unique id
and the current timestamp are effects in the source (`uuid`, `utcnow`) and
are taken here as parameters. -/
def Stash.add_dump (s : Stash) (dump_id timestamp : String)
    (storage_url : String) : Dump × Stash :=
  let d : Dump := ⟨dump_id, timestamp, storage_url⟩
  (d, { s with dumps := s.dumps ++ [d] })

/-! ## Catalog document marshalling (`repo.py`) -/

/-- JSON values, as far as the catalog document needs them. -/
inductive JVal where
  | str : String → JVal
  | obj : List (String × JVal) → JVal
  | arr : List JVal → JVal

/-- Top-level keys of a JSON object, in order. -/
def jKeys : JVal → List String
  | .obj fields => fields.map Prod.fst
  | _ => []

/-- `repo.marshal_dump`: dict from a `Dump`. -/
def marshal_dump (d : Dump) : JVal :=
  .obj [("dump_id", .str d.dump_id),
        ("storage_url", .str d.storage_url),
        ("timestamp", .str d.timestamp)]

/-- `repo.marshal_stash`: dict from a `Stash`.  Note the source emits the
key `bucket`, not `name`. -/
def marshal_stash (s : Stash) : JVal :=
  .obj [("bucket", .str s.bucket),
        ("tags", .obj (s.tags.map (fun p => (p.1, JVal.str p.2)))),
        ("dumps", .arr (s.dumps.map marshal_dump))]

/-- `repo.unmarshal_dump`: a `Dump` from its dict.  A malformed document
(a raised `TypeError`/`KeyError` in the source) is `none`. -/
def unmarshal_dump (v : JVal) : Option Dump :=
  match v with
  | .obj fields =>
    match fields.lookup "dump_id", fields.lookup "storage_url",
        fields.lookup "timestamp" with
    | some (.str i), some (.str u), some (.str t) => some ⟨i, t, u⟩
    | _, _, _ => none
  | _ => none

/-- `repo.unmarshal_stash`: a `Stash` from its dict (malformed is `none`). -/
def unmarshal_stash (v : JVal) : Option Stash :=
  match v with
  | .obj fields =>
    match fields.lookup "bucket", fields.lookup "tags",
        fields.lookup "dumps" with
    | some (.str b), some (.obj tagFields), some (.arr dumpVals) =>
      match tagFields.mapM (fun p => match p.2 with
                | .str v2 => some (p.1, v2)
                | _ => none),
          dumpVals.mapM unmarshal_dump with
      | some tags, some dumps => some ⟨b, tags, dumps⟩
      | _, _ => none
    | _, _, _ => none
  | _ => none

/-! ## Storage (`storage.py`)

The persisted side of the S3 backend is modelled as an association list
from path to stored document.  The textual JSON encoding is abstracted:
documents are stored as their parsed `JVal` (`json.dumps`/`json.loads`
round-trip faithfully on these documents). -/

/-- Persisted storage: path to stored catalog document. -/
abbrev StorageState := List (String × JVal)

/-- Python `dict`-style insert used to model `put_object`: an existing key
is overwritten in place, a new key is appended. -/
def dictPut (σ : StorageState) (path : String) (v : JVal) : StorageState :=
  if σ.any (fun p => p.1 = path) then
    σ.map (fun p => if p.1 = path then (path, v) else p)
  else
    σ ++ [(path, v)]

/-- Storage errors of `storage.py`. -/
inductive StorageError where
  | notFound : StorageError
  | invalidStorageURL : StorageError
  | backendNotSupported : StorageError
deriving DecidableEq, Repr

/-- `storage.store` through the S3 backend: `put_object` writes
unconditionally (an existing object is overwritten with no precondition). -/
def storage_store (σ : StorageState) (path : String) (content : JVal) :
    StorageState :=
  dictPut σ path content

/-- `storage.read` through the S3 backend: the stored document, or
`NotFoundError` when absent. -/
def storage_read (σ : StorageState) (path : String) :
    Except StorageError JVal :=
  match σ.lookup path with
  | some v => .ok v
  | none => .error .notFound

/-- `storage.is_backend_supported`: only `s3` is registered. -/
def is_backend_supported (name : String) : Bool := name = "s3"

/-! ## Catalog repository (`repo.py`) -/

/-- `repo.VersionConflict` — "Raised when an out-of-date stash is saved."
Defined in the source, but nothing in the source ever raises it. -/
inductive VersionConflict where
  | mk : VersionConflict
deriving DecidableEq, Repr

/-- `StashRepo._get_metadata_path`. -/
def metadata_path (bucket : String) : String := bucket ++ "/_metadata.json"

/-- `StashRepo.load`: read and unmarshal the metadata document; a
`NotFoundError` yields a fresh empty stash.  `none` models the undocumented
exception on a malformed stored document. -/
def StashRepo_load (bucket : String) (σ : StorageState) : Option Stash :=
  match storage_read σ (metadata_path bucket) with
  | .ok v => unmarshal_stash v
  | .error _ => some ⟨bucket, [], []⟩

/-- `StashRepo.save`: marshal the stash and store it.  The write is
unconditional — the source performs no version comparison and no code path
produces a `VersionConflict`, so the result is always `ok`. -/
def StashRepo_save (st : Stash) (σ : StorageState) :
    Except VersionConflict (Stash × StorageState) :=
  .ok (st, storage_store σ (metadata_path st.bucket) (marshal_stash st))

/-! ## Conflict-retry wrapper (`cmd._safely_update_stash`)

The wrapper is embedded parametrically in the load and save operations it
calls, so that its behaviour under a conflicting save — the situation the
retry loop exists for — is statable.  `updateFn` returns its result
together with the mutated stash (the source mutates in place).  The result
pairs the wrapper's outcome with the number of loop iterations (attempts)
executed; the outcome is `Except`-valued so that an exception escaping the
wrapper is representable — the source's loop catches `VersionConflict` and,
once `remaining` reaches zero, falls off the loop returning `None`
(modelled as `.ok none`); it never re-raises. -/

def safely_update_stash {α : Type} (loadFn : String → Stash)
    (saveFn : Stash → Except VersionConflict Stash)
    (updateFn : Stash → α × Stash) :
    Stash → Nat → Except VersionConflict (Option α) × Nat
  | _, 0 => (.ok none, 0)
  | st, remaining + 1 =>
    let r := updateFn st
    match saveFn r.2 with
    | .ok _ => (.ok (some r.1), 1)
    | .error _ =>
      let rec2 := safely_update_stash loadFn saveFn updateFn
        (loadFn r.2.bucket) remaining
      (rec2.1, rec2.2 + 1)

/-! ## Storage URLs (`storage.parse_storage_url` / `make_storage_url`) -/

/-- Worker for `splitSep`, structurally recursive on the scanned list.
`skip` counts positions still inside a matched separator. -/
def splitGo (sep : List Char) : List Char → Nat → List (List Char)
  | [], _ => [[]]
  | _ :: cs, skip + 1 => splitGo sep cs skip
  | c :: cs, 0 =>
    if sep.isPrefixOf (c :: cs) ∧ 0 < sep.length then
      [] :: splitGo sep cs (sep.length - 1)
    else
      match splitGo sep cs 0 with
      | [] => [[c]]
      | h :: t => (c :: h) :: t

/-- Python `str.split(sep)` for a non-empty separator: split on every
occurrence, scanning left to right, non-overlapping. -/
def splitSep (sep s : List Char) : List (List Char) := splitGo sep s 0

/-- `storage.parse_storage_url`: `url.split('://')` must produce exactly
two tokens; any other token count raises `InvalidStorageURL`. -/
def parse_storage_url (url : List Char) :
    Except StorageError (List Char × List Char) :=
  match splitSep (String.toList "://") url with
  | [b, p] => .ok (b, p)
  | _ => .error .invalidStorageURL

/-- `storage.make_storage_url`: `backend://path`, after checking the
backend is supported. -/
def make_storage_url (backend path : List Char) :
    Except StorageError (List Char) :=
  if is_backend_supported (String.mk backend) then
    .ok (backend ++ String.toList "://" ++ path)
  else
    .error .backendNotSupported

/-! ## Stream adapter (`utils._IteratorStream`) -/

/-- State of `utils._IteratorStream`: the buffered remainder of the last
chunk, and the chunks the underlying iterator has yet to yield. -/
structure IteratorStream where
  leftover : List Nat
  chunks : List (List Nat)
deriving DecidableEq, Repr

/-- `_IteratorStream.readinto` with a buffer of capacity `n`: take the
leftover if non-empty, else the iterator's next chunk (`StopIteration`
with an empty leftover returns 0 bytes); copy at most `n` bytes out and
buffer the rest.  Returns the bytes written and the successor state. -/
def readinto (st : IteratorStream) (n : Nat) : List Nat × IteratorStream :=
  match st.leftover, st.chunks with
  | [], [] => ([], ⟨[], []⟩)
  | [], c :: cs => (c.take n, ⟨c.drop n, cs⟩)
  | l, cs => (l.take n, ⟨l.drop n, cs⟩)

/-- Repeatedly pull from the stream with capacity `n`, stopping at the
first empty read (the `readinto` end-of-data signal), gathering all bytes
returned.  `fuel` bounds the recursion. -/
def drainStream (n : Nat) : IteratorStream → Nat → List Nat
  | _, 0 => []
  | st, fuel + 1 =>
    let r := readinto st n
    if r.1 = [] then [] else r.1 ++ drainStream n r.2 fuel

/-! ## Output multiplexer (`dumper._consume_output`)

`_consume_output` polls two `FileReaderThread` queues: each loop iteration
drains every line currently queued on stderr (checking each, after
`strip()` and decoding, for the error sentinel in its first 15 characters,
remembering the last match in `err_msg` and calling `stop()` on both
readers), then drains every line queued on stdout, yielding each through
`_process_stdout_line`; the loop ends once both readers are at eof, the
threads are joined, and `DumperError(err_msg)` is raised if a sentinel was
seen.  The embedding below fixes the schedule to the one the claims single
out: both reader threads have terminated and all their lines are already
queued when the control loop runs, so one iteration drains everything.
`stop()` is a no-op in this schedule (it only prevents further enqueuing;
it never removes queued lines). -/

/-- `dumper.ERR_SYMBOL`. -/
def ERR_SYMBOL : Char := '⨯'

/-- Characters removed by Python `str.strip()` on these ASCII-whitespace
delimited lines. -/
def isSpaceChar (c : Char) : Bool :=
  c = ' ' || c = '\t' || c = '\n' || c = '\r' ||
  c = Char.ofNat 11 || c = Char.ofNat 12

/-- `str.strip()` on a decoded diagnostic line. -/
def stripChars (l : List Char) : List Char :=
  ((l.dropWhile isSpaceChar).reverse.dropWhile isSpaceChar).reverse

/-- `ERR_SYMBOL in line_string[:15]`: the sentinel occurs within the first
15 characters. -/
def sentinelHit (l : List Char) : Bool := (l.take 15).contains ERR_SYMBOL

/-- The stderr half of the control loop: strip each queued diagnostic
line and remember (overwriting) the stripped text whenever the sentinel
check fires; `acc` is the current `err_msg`. -/
def scanStderr : List (List Char) → Option (List Char) → Option (List Char)
  | [], acc => acc
  | l :: ls, acc =>
    scanStderr ls (if sentinelHit (stripChars l) then some (stripChars l) else acc)

/-- `_consume_output` under the queued-up schedule described above: the
first component is the sequence of data lines the generator yields (each
passed through `_process_stdout_line`), the second is the `err_msg`
carried by the `DumperError` raised after draining (or `none`). -/
def consume_output_drained (stderrLines : List (List Char))
    (stdoutLines : List (List Nat)) :
    List (List Nat) × Option (List Char) :=
  (stdoutLines.map process_stdout_line, scanStderr stderrLines none)

/-! ## Concrete scenarios used by the proofs -/

/-- The fresh stash `StashRepo.load` yields for bucket `b` on empty storage. -/
def c1_fresh : Stash := ⟨"b", [], []⟩

/-- First independent in-memory copy of the catalog, with its own new dump. -/
def c1_stashA : Stash :=
  (c1_fresh.add_dump "aaaa1111" "2020-01-01T00:00:00" "s3://b/a.dump").2

/-- Second independent in-memory copy of the same catalog, with a different
new dump, mutated without reloading after the first copy's save. -/
def c1_stashB : Stash :=
  (c1_fresh.add_dump "bbbb2222" "2020-01-02T00:00:00" "s3://b/b.dump").2

/-- Storage after saving the first copy. -/
def c1_sigma1 : StorageState :=
  storage_store [] (metadata_path "b") (marshal_stash c1_stashA)

/-- Storage after then saving the second copy. -/
def c1_sigma2 : StorageState :=
  storage_store c1_sigma1 (metadata_path "b") (marshal_stash c1_stashB)

/-- A small concrete catalog for the marshalling claims. -/
def c9_stash : Stash :=
  ⟨"mybucket", [("stable", "d1")],
   [⟨"d1", "2020-01-01T00:00:00", "s3://mybucket/x.dump"⟩]⟩

/-- A concrete catalog with a dangling tag: `old` maps to a dump id that is
not present in `dumps`. -/
def c10_stash : Stash :=
  ⟨"b", [("old", "gone0000"), ("ok", "d1d1d1d1")],
   [⟨"d1d1d1d1", "2020-01-01T00:00:00", "s3://b/x.dump"⟩]⟩

/-! # Theorems -/

/-- `Stash.get_dump` unfolded: the filtered hit list's head. -/
theorem get_dump_eq (s : Stash) (i : String) :
    s.get_dump i =
      (s.dumps.filter
        (fun d => d.dump_id = ((s.tags.lookup i).getD i))).head? := rfl

/-- If no dump carries the id `t`, the hit list for `t` is empty. -/
theorem filter_dumps_eq_nil (l : List Dump) (t : String)
    (h : ∀ d ∈ l, d.dump_id ≠ t) :
    (l.filter (fun d => d.dump_id = t)).head? = none := by
  have hnil : l.filter (fun d => decide (d.dump_id = t)) = [] := by
    rw [List.filter_eq_nil_iff]
    intro d hd
    simp [h d hd]
  simp only [hnil, List.head?_nil]

/-- Claim C1 (code bug): the source's `StashRepo.save` performs no version
comparison at all — it marshals the stash and stores it unconditionally, so
it can never fail as `VersionConflict`.  In the claim's own scenario, two
independent in-memory copies of catalog `b` are each mutated and saved
without an intermediate reload: both saves return `ok`, and the persisted
document after the second save is exactly the second copy's, which does not
contain the first copy's dump — the first mutation is silently overwritten
instead of the second save failing. -/
theorem C1_save_blind_overwrite :
    StashRepo_load "b" [] = some c1_fresh ∧
    StashRepo_save c1_stashA [] = Except.ok (c1_stashA, c1_sigma1) ∧
    StashRepo_save c1_stashB c1_sigma1 = Except.ok (c1_stashB, c1_sigma2) ∧
    c1_sigma2.lookup (metadata_path "b") = some (marshal_stash c1_stashB) ∧
    StashRepo_load "b" c1_sigma2 = some c1_stashB ∧
    ¬ ∃ d ∈ c1_stashB.dumps, d.dump_id = "aaaa1111" :=
  ⟨rfl, rfl, rfl, rfl, rfl, by decide⟩

/-- Claim C2 (amended): against a save that always fails with
`VersionConflict`, the retry wrapper executes exactly `tries` attempts
(reloading and re-applying the mutation between attempts) and then falls
off its loop returning `None` — it does not re-raise the conflict and does
not loop forever. -/
theorem C2_retry_exhaustion_returns_none {α : Type} (loadFn : String → Stash)
    (saveFn : Stash → Except VersionConflict Stash)
    (updateFn : Stash → α × Stash)
    (h : ∀ s, ∃ e, saveFn s = Except.error e) :
    ∀ (st : Stash) (tries : Nat),
      safely_update_stash loadFn saveFn updateFn st tries =
        (Except.ok none, tries) := by
  intro st tries
  induction tries generalizing st with
  | zero => rfl
  | succ n ih =>
    obtain ⟨e, he⟩ := h (updateFn st).2
    simp [safely_update_stash, he, ih]

/-- Witness for C2: a concrete always-conflicting save, run with the
source's default of 5 tries. -/
theorem C2_retry_witness :
    safely_update_stash (fun b => ⟨b, [], []⟩)
      (fun _ => Except.error VersionConflict.mk)
      (fun s => ((), s)) (⟨"c", [], []⟩ : Stash) 5 = (Except.ok none, 5) :=
  C2_retry_exhaustion_returns_none (fun b => ⟨b, [], []⟩)
    (fun _ => Except.error VersionConflict.mk) (fun s => ((), s))
    (fun _ => ⟨VersionConflict.mk, rfl⟩) ⟨"c", [], []⟩ 5

/-- Counterexample for C2 as stated: with a save that always conflicts, the
wrapper's outcome after its 5 attempts is a normal return of `None`
(`.ok none`), not a raised `VersionConflict`. -/
theorem C2_no_raise_on_exhaustion :
    safely_update_stash (fun b => ⟨b, [], []⟩)
      (fun _ => Except.error VersionConflict.mk)
      (fun s => ((), s)) (⟨"b", [], []⟩ : Stash) 5 = (Except.ok none, 5) ∧
    ∀ e, (safely_update_stash (fun b => ⟨b, [], []⟩)
      (fun _ => Except.error VersionConflict.mk)
      (fun s => ((), s)) (⟨"b", [], []⟩ : Stash) 5).1 ≠ Except.error e :=
  ⟨rfl, fun _ h => Except.noConfusion h⟩

/-- Counterexample for C3 as stated: both per-line fixups fail idempotence
on a recognized insert line — a second application inserts the `public.`
namespace prefix again. -/
theorem C3_not_idempotent_on_insert :
    process_stdout_line
        (process_stdout_line (bytesOf "INSERT INTO foo VALUES (1)")) ≠
      process_stdout_line (bytesOf "INSERT INTO foo VALUES (1)") ∧
    fix_insert_statement
        (fix_insert_statement (bytesOf "INSERT INTO foo VALUES (1)")) ≠
      fix_insert_statement (bytesOf "INSERT INTO foo VALUES (1)") := by
  decide

/-- Claim C3 (amended): both fixups are idempotent on every line that does
not begin with the `INSERT INTO` marker (such lines pass through
unchanged); on marker lines idempotence fails in general. -/
theorem C3_idempotent_on_nonmarker (x : List Nat)
    (h : (bytesOf "INSERT INTO").isPrefixOf x = false) :
    process_stdout_line (process_stdout_line x) = process_stdout_line x ∧
    fix_insert_statement (fix_insert_statement x) = fix_insert_statement x := by
  have h1 : process_stdout_line x = x := by simp [process_stdout_line, h]
  have h2 : fix_insert_statement x = x := by simp [fix_insert_statement, h]
  rw [h1, h2, h1, h2]
  exact ⟨rfl, rfl⟩

/-- Witness for C3 at a concrete non-insert line. -/
theorem C3_idempotent_witness :
    process_stdout_line
        (process_stdout_line (bytesOf "SET search_path TO x;")) =
      process_stdout_line (bytesOf "SET search_path TO x;") ∧
    fix_insert_statement
        (fix_insert_statement (bytesOf "SET search_path TO x;")) =
      fix_insert_statement (bytesOf "SET search_path TO x;") :=
  C3_idempotent_on_nonmarker (bytesOf "SET search_path TO x;") (by decide)

/-- Counterexample for C9 as stated: the serialized catalog's top-level
fields are `bucket`, `tags`, `dumps` — there is no field named `name`. -/
theorem C9_no_name_field :
    jKeys (marshal_stash c9_stash) = ["bucket", "tags", "dumps"] ∧
    "name" ∉ jKeys (marshal_stash c9_stash) := by
  decide

/-- Claim C9 (amended): for every catalog, the serialized document is a
JSON object whose top-level fields are exactly `bucket` (a string — the
catalog's name field is called `bucket`, not `name`), `tags` (an object
all of whose values are strings) and `dumps` (an array of objects with
fields exactly `dump_id`, `storage_url`, `timestamp`). -/
theorem C9_marshal_shape (s : Stash) :
    jKeys (marshal_stash s) = ["bucket", "tags", "dumps"] ∧
    (∃ fields, marshal_stash s = JVal.obj fields ∧
      fields.lookup "bucket" = some (.str s.bucket) ∧
      (∃ tagFields, fields.lookup "tags" = some (.obj tagFields) ∧
        ∀ p ∈ tagFields, ∃ v, p.2 = JVal.str v) ∧
      fields.lookup "dumps" = some (.arr (s.dumps.map marshal_dump))) ∧
    (∀ d : Dump,
      jKeys (marshal_dump d) = ["dump_id", "storage_url", "timestamp"]) := by
  refine ⟨rfl, ⟨_, rfl, rfl, ⟨_, rfl, ?_⟩, rfl⟩, fun d => rfl⟩
  intro p hp
  obtain ⟨q, _, hq⟩ := List.mem_map.mp hp
  exact ⟨q.2, by rw [← hq]⟩

/-- Witness for C9 at a concrete catalog. -/
theorem C9_marshal_witness :
    jKeys (marshal_stash c9_stash) = ["bucket", "tags", "dumps"] ∧
    jKeys (marshal_dump ⟨"d1", "2020-01-01T00:00:00", "s3://mybucket/x.dump"⟩) =
      ["dump_id", "storage_url", "timestamp"] :=
  ⟨(C9_marshal_shape c9_stash).1,
   (C9_marshal_shape c9_stash).2.2 ⟨"d1", "2020-01-01T00:00:00", "s3://mybucket/x.dump"⟩⟩

/-- Claim C10: `get_dump` is a pure total function of the catalog (the
embedding returns an `Option` and touches no state), and it returns `none`
both when the identifier is neither a tag nor a dump id, and when it is a
dangling tag whose mapped dump id is absent from `dumps`. -/
theorem C10_get_dump_none_cases (s : Stash) (i : String) :
    (s.tags.lookup i = none → (∀ d ∈ s.dumps, d.dump_id ≠ i) →
      s.get_dump i = none) ∧
    (∀ j, s.tags.lookup i = some j → (∀ d ∈ s.dumps, d.dump_id ≠ j) →
      s.get_dump i = none) := by
  constructor
  · intro h1 h2
    rw [get_dump_eq, h1]
    exact filter_dumps_eq_nil s.dumps i h2
  · intro j h1 h2
    rw [get_dump_eq, h1]
    exact filter_dumps_eq_nil s.dumps j h2

/-- Witness for C10: a dangling tag and an unknown identifier on a concrete
catalog both resolve to `none`. -/
theorem C10_get_dump_witness :
    c10_stash.get_dump "old" = none ∧ c10_stash.get_dump "nosuch" = none :=
  ⟨(C10_get_dump_none_cases c10_stash "old").2 "gone0000" (by decide) (by decide),
   (C10_get_dump_none_cases c10_stash "nosuch").1 (by decide) (by decide)⟩

/-- The two single-byte tails appended by the transformers concatenate to
the two-byte tail. -/
theorem semi_newline_bytes : bytesOf ";" ++ bytesOf "\n" = bytesOf ";\n" := by
  decide

/-- Counterexample for C6 as stated: on an insert line that already ends
with the terminator, the restore-side fixup appends a newline while the
extraction-side fixup does not, so the two functions differ. -/
theorem C6_fixups_differ :
    fix_insert_statement (bytesOf "INSERT INTO foo VALUES (1);") ≠
      process_stdout_line (bytesOf "INSERT INTO foo VALUES (1);") := by
  decide

/-- Claim C6 (amended): the extraction-side and restore-side fixups return
identical output on every line except a recognized insert line whose
fixed-up form already ends with the terminator; exactly there the
restore-side output is the extraction-side output plus a trailing
newline. -/
theorem C6_agree_up_to_newline (x : List Nat) :
    (¬ ((bytesOf "INSERT INTO").isPrefixOf x = true ∧
        (bytesOf ";").isSuffixOf (fixupCore x) = true) →
      fix_insert_statement x = process_stdout_line x) ∧
    ((bytesOf "INSERT INTO").isPrefixOf x = true →
      (bytesOf ";").isSuffixOf (fixupCore x) = true →
      fix_insert_statement x = process_stdout_line x ++ bytesOf "\n") := by
  constructor
  · intro hne
    by_cases hp : (bytesOf "INSERT INTO").isPrefixOf x = true
    · have hs : ¬ (bytesOf ";").isSuffixOf (fixupCore x) = true := fun hs =>
        hne ⟨hp, hs⟩
      simp only [fix_insert_statement, process_stdout_line, hp, hs, if_true,
        if_false, Bool.false_eq_true]
      rw [List.append_assoc, semi_newline_bytes]
    · simp [fix_insert_statement, process_stdout_line, hp]
  · intro hp hs
    simp [fix_insert_statement, process_stdout_line, hp, hs]

/-- Witness for C6: the two fixups coincide at a concrete non-insert line,
and differ by exactly a trailing newline at a concrete insert line already
ending with the terminator. -/
theorem C6_agree_witness :
    fix_insert_statement (bytesOf "SELECT 1") =
      process_stdout_line (bytesOf "SELECT 1") ∧
    fix_insert_statement (bytesOf "INSERT INTO bar VALUES (2);") =
      process_stdout_line (bytesOf "INSERT INTO bar VALUES (2);") ++
        bytesOf "\n" :=
  ⟨(C6_agree_up_to_newline (bytesOf "SELECT 1")).1 (by decide),
   (C6_agree_up_to_newline (bytesOf "INSERT INTO bar VALUES (2);")).2
     (by decide) (by decide)⟩

/-- Counterexample for C5 as stated: the extraction-side fixup does not end
its output with `;` followed by a newline when the fixed-up line already
ends with the terminator — nothing is appended then. -/
theorem C5_no_newline_when_terminated :
    ¬ (bytesOf ";\n").isSuffixOf
        (process_stdout_line (bytesOf "INSERT INTO foo VALUES (1);")) = true := by
  decide

/-- Claim C5 (amended): on every recognized insert line the restore-side
fixup's output ends with `;` followed by a newline; the extraction-side
output ends with the terminator but gains the newline only when the
terminator itself was appended.  The claim's particular example transforms
exactly as stated under both fixups (prefixed table, unquoted `NULL`,
normalized offset, terminator and newline). -/
theorem C5_insert_fixups (x : List Nat)
    (h : (bytesOf "INSERT INTO").isPrefixOf x = true) :
    (bytesOf ";\n").isSuffixOf (fix_insert_statement x) = true ∧
    ((bytesOf ";").isSuffixOf (process_stdout_line x) = true ∨
      (bytesOf ";\n").isSuffixOf (process_stdout_line x) = true) ∧
    process_stdout_line
        (bytesOf "INSERT INTO foo VALUES ('a', 'NULL', '2020-01-01 00:00:00+0000 UTC')") =
      bytesOf "INSERT INTO public.foo VALUES ('a', NULL, '2020-01-01 00:00:00+00');\n" ∧
    fix_insert_statement
        (bytesOf "INSERT INTO foo VALUES ('a', 'NULL', '2020-01-01 00:00:00+0000 UTC')") =
      bytesOf "INSERT INTO public.foo VALUES ('a', NULL, '2020-01-01 00:00:00+00');\n" := by
  refine ⟨?_, ?_, by decide, by decide⟩
  · rw [List.isSuffixOf_iff_suffix]
    unfold fix_insert_statement
    simp only [h, if_true]
    by_cases hs : (bytesOf ";").isSuffixOf (fixupCore x) = true
    · simp only [hs, if_true]
      rw [List.isSuffixOf_iff_suffix] at hs
      obtain ⟨t, ht⟩ := hs
      rw [← ht, List.append_assoc, semi_newline_bytes]
      exact List.suffix_append t (bytesOf ";\n")
    · simp only [hs, if_false, Bool.false_eq_true]
      rw [List.append_assoc, semi_newline_bytes]
      exact List.suffix_append _ (bytesOf ";\n")
  · unfold process_stdout_line
    simp only [h, if_true]
    by_cases hs : (bytesOf ";").isSuffixOf (fixupCore x) = true
    · left
      rwa [if_pos hs]
    · right
      rw [if_neg hs, List.isSuffixOf_iff_suffix]
      exact List.suffix_append _ (bytesOf ";\n")

/-- Witness for C5: the terminator-and-newline guarantee of the
restore-side fixup at a concrete insert line. -/
theorem C5_fixups_witness :
    (bytesOf ";\n").isSuffixOf
      (fix_insert_statement (bytesOf "INSERT INTO t VALUES (2)")) = true :=
  (C5_insert_fixups (bytesOf "INSERT INTO t VALUES (2)") (by decide)).1

/-- The stderr scan of `_consume_output` produces a diagnostic message
(one that passed the sentinel check) whenever some queued diagnostic line
hits the sentinel, or the accumulator already holds one. -/
theorem scanStderr_hit (ls : List (List Char)) :
    ∀ acc, (∀ m, acc = some m → sentinelHit m = true) →
      ((∃ l ∈ ls, sentinelHit (stripChars l) = true) ∨ ∃ m, acc = some m) →
      ∃ m, scanStderr ls acc = some m ∧ sentinelHit m = true := by
  induction ls with
  | nil =>
    intro acc hacc hex
    rcases hex with ⟨l, hl, _⟩ | ⟨m, hm⟩
    · exact absurd hl (List.not_mem_nil l)
    · exact ⟨m, hm ▸ rfl, hacc m hm⟩
  | cons l ls ih =>
    intro acc hacc hex
    show ∃ m, scanStderr ls
      (if sentinelHit (stripChars l) then some (stripChars l) else acc) =
        some m ∧ sentinelHit m = true
    by_cases hl : sentinelHit (stripChars l) = true
    · rw [if_pos hl]
      refine ih _ ?_ (Or.inr ⟨stripChars l, rfl⟩)
      intro m hm
      cases hm
      exact hl
    · rw [if_neg hl]
      refine ih acc hacc ?_
      rcases hex with ⟨l2, hl2, hhit⟩ | hsome
      · rcases List.mem_cons.mp hl2 with rfl | hmem
        · exact absurd hhit hl
        · exact Or.inl ⟨l2, hmem, hhit⟩
      · exact Or.inr hsome

/-- Counterexample for C4 as stated: with a sentinel diagnostic line and
two data lines already queued when the control loop drains, the pipeline
still yields both data lines (after the sentinel was observed), even
though it does raise `DumperError` with the diagnostic text afterwards. -/
theorem C4_queued_data_still_yielded :
    (consume_output_drained [String.toList "⨯ fatal"]
        [bytesOf "INSERT INTO foo VALUES (1)", bytesOf "COMMIT;"]).2 =
      some (String.toList "⨯ fatal") ∧
    (consume_output_drained [String.toList "⨯ fatal"]
        [bytesOf "INSERT INTO foo VALUES (1)", bytesOf "COMMIT;"]).1 ≠ [] := by
  exact ⟨by decide, by decide⟩

/-- Claim C4 (amended): when a queued diagnostic line carries the sentinel
within its first 15 characters, the drained pipeline does raise
`DumperError` carrying a sentinel-bearing diagnostic text after draining —
but the data lines already queued on the stdout side are all still yielded
(each through the fixup); `stop()` only keeps the readers from queueing
more. -/
theorem C4_sentinel_raises_but_yields_queued (eL : List (List Char))
    (dL : List (List Nat))
    (h : ∃ l ∈ eL, sentinelHit (stripChars l) = true) :
    (consume_output_drained eL dL).1 = dL.map process_stdout_line ∧
    ∃ m, (consume_output_drained eL dL).2 = some m ∧ sentinelHit m = true :=
  ⟨rfl, scanStderr_hit eL none (fun _ hm => Option.noConfusion hm) (Or.inl h)⟩

/-- Witness for C4 at a concrete sentinel line and one queued data line. -/
theorem C4_sentinel_witness :
    (consume_output_drained [String.toList "  ⨯ boom  "] [bytesOf "x"]).1 =
      [bytesOf "x"].map process_stdout_line ∧
    ∃ m, (consume_output_drained [String.toList "  ⨯ boom  "]
        [bytesOf "x"]).2 = some m ∧ sentinelHit m = true :=
  C4_sentinel_raises_but_yields_queued [String.toList "  ⨯ boom  "] [bytesOf "x"]
    ⟨String.toList "  ⨯ boom  ", List.mem_singleton_self _, by decide⟩

/-- Splitting never produces an empty token list. -/
theorem splitGo_ne_nil (sep : List Char) :
    ∀ (s : List Char) (skip : Nat), splitGo sep s skip ≠ [] := by
  intro s
  induction s with
  | nil => intro skip; simp [splitGo]
  | cons c cs ih =>
    intro skip
    match skip with
    | skip + 1 => exact ih skip
    | 0 =>
      show (if sep.isPrefixOf (c :: cs) ∧ 0 < sep.length then
          [] :: splitGo sep cs (sep.length - 1)
        else
          match splitGo sep cs 0 with
          | [] => [[c]]
          | h :: t => (c :: h) :: t) ≠ []
      by_cases hm : sep.isPrefixOf (c :: cs) ∧ 0 < sep.length
      · rw [if_pos hm]
        exact List.cons_ne_nil _ _
      · rw [if_neg hm]
        match splitGo sep cs 0 with
        | [] => exact List.cons_ne_nil _ _
        | h :: t => exact List.cons_ne_nil _ _

/-- Skipping over `l.length` positions discards exactly `l`. -/
theorem splitGo_skip (sep : List Char) (p : List Char) :
    ∀ (l : List Char), splitGo sep (l ++ p) l.length = splitGo sep p 0 := by
  intro l
  induction l with
  | nil => rfl
  | cons x l' ih =>
    show splitGo sep (l' ++ p) l'.length = splitGo sep p 0
    exact ih

/-- A separator at the head closes the current token and continues after
the separator. -/
theorem splitGo_match (sep : List Char) (hsep : sep ≠ []) (p : List Char) :
    splitGo sep (sep ++ p) 0 = [] :: splitGo sep p 0 := by
  match sep, hsep with
  | a :: as, _ =>
    show (if (a :: as).isPrefixOf (a :: as ++ p) ∧ 0 < (a :: as).length then
        [] :: splitGo (a :: as) (as ++ p) ((a :: as).length - 1)
      else
        match splitGo (a :: as) (as ++ p) 0 with
        | [] => [[a]]
        | h :: t => (a :: h) :: t) = [] :: splitGo (a :: as) p 0
    rw [if_pos ⟨List.isPrefixOf_iff_prefix.mpr (List.prefix_append _ _),
      by simp⟩]
    have : (a :: as).length - 1 = as.length := by simp
    rw [this, splitGo_skip]

/-- A head-character mismatch refutes the prefix test. -/
theorem isPrefixOf_cons_false (a b : Char) (as bs : List Char)
    (hab : (a == b) = false) :
    (a :: as).isPrefixOf (b :: bs) = false := by
  simp only [List.isPrefixOf, hab, Bool.false_and]

/-- A non-separator character extends the current (first) token. -/
theorem splitGo_no_match (sep : List Char) (c : Char) (cs : List Char)
    (hno : sep.isPrefixOf (c :: cs) = false) (h : List Char)
    (t : List (List Char)) (hrec : splitGo sep cs 0 = h :: t) :
    splitGo sep (c :: cs) 0 = (c :: h) :: t := by
  show (if sep.isPrefixOf (c :: cs) ∧ 0 < sep.length then
      [] :: splitGo sep cs (sep.length - 1)
    else
      match splitGo sep cs 0 with
      | [] => [[c]]
      | h :: t => (c :: h) :: t) = (c :: h) :: t
  rw [if_neg (by simp [hno]), hrec]

/-- Counterexample for C7 as stated: `s3://a://b` contains `://` (so a
split on its first occurrence into `("s3", "a://b")` is possible, and this
URL is exactly what `make_storage_url` builds from the supported backend
`s3` and the path `a://b`), yet parsing rejects it as an invalid URL
because the source demands exactly two split tokens. -/
theorem C7_second_separator_rejected :
    parse_storage_url (String.toList "s3://a://b") =
      Except.error StorageError.invalidStorageURL ∧
    make_storage_url (String.toList "s3") (String.toList "a://b") =
      Except.ok (String.toList "s3://a://b") :=
  ⟨rfl, rfl⟩

/-- Claim C7 (amended): URL parsing splits on `://` and requires exactly
one occurrence: a string with no occurrence fails as `InvalidStorageURL`
(and so does one with several), while for the supported backend `s3` and
any path containing no `://` the round trip through `make_storage_url`
returns `(backend, path)`. -/
theorem C7_parse_make_roundtrip (p : List Char)
    (hp : splitSep (String.toList "://") p = [p]) :
    parse_storage_url p = Except.error StorageError.invalidStorageURL ∧
    make_storage_url (String.toList "s3") p =
      Except.ok (String.toList "s3" ++ String.toList "://" ++ p) ∧
    parse_storage_url (String.toList "s3" ++ String.toList "://" ++ p) =
      Except.ok (String.toList "s3", p) := by
  refine ⟨?_, rfl, ?_⟩
  · unfold parse_storage_url
    rw [hp]
  · have e1 : splitGo (String.toList "://") (String.toList "://" ++ p) 0 =
        [[], p] := by
      rw [splitGo_match (String.toList "://") (by decide) p]
      exact congrArg _ hp
    have e2 : splitGo (String.toList "://") ('3' :: (String.toList "://" ++ p)) 0 =
        [['3'], p] :=
      splitGo_no_match (String.toList "://") '3' (String.toList "://" ++ p)
        (isPrefixOf_cons_false ':' '3' _ _ rfl) [] [p] e1
    have e3 : splitGo (String.toList "://") ('s' :: '3' :: (String.toList "://" ++ p)) 0 =
        [['s', '3'], p] :=
      splitGo_no_match (String.toList "://") 's' ('3' :: (String.toList "://" ++ p))
        (isPrefixOf_cons_false ':' 's' _ _ rfl) ['3'] [p] e2
    unfold parse_storage_url splitSep
    rw [show String.toList "s3" ++ String.toList "://" ++ p =
      's' :: '3' :: (String.toList "://" ++ p) from rfl]
    rw [e3]
    rfl

/-- Witness for C7 at a concrete separator-free path. -/
theorem C7_roundtrip_witness :
    parse_storage_url (String.toList "s3" ++ String.toList "://" ++
        String.toList "bkt/key.dump") =
      Except.ok (String.toList "s3", String.toList "bkt/key.dump") :=
  (C7_parse_make_roundtrip (String.toList "bkt/key.dump") (by decide)).2.2

/-- The adapter never reads more than the requested capacity. -/
theorem readinto_length_le (st : IteratorStream) (n : Nat) :
    (readinto st n).1.length ≤ n := by
  obtain ⟨lo, ch⟩ := st
  cases lo with
  | nil =>
    cases ch with
    | nil => simp [readinto]
    | cons c cs =>
      simp only [readinto, List.length_take]
      exact Nat.min_le_left _ _
  | cons x l' =>
    simp only [readinto, List.length_take]
    exact Nat.min_le_left _ _

/-- With non-empty chunks and a positive capacity, a read of 0 bytes
happens exactly at end-of-data. -/
theorem readinto_zero_iff (st : IteratorStream) (n : Nat) (hn : 1 ≤ n)
    (hc : ∀ c ∈ st.chunks, c ≠ []) :
    ((readinto st n).1 = [] ↔ st.leftover = [] ∧ st.chunks = []) := by
  obtain ⟨lo, ch⟩ := st
  cases lo with
  | nil =>
    cases ch with
    | nil => simp [readinto]
    | cons c cs =>
      simp only [readinto, List.take_eq_nil_iff]
      constructor
      · rintro (h0 | hcnil)
        · omega
        · exact absurd hcnil (hc c (List.mem_cons_self c cs))
      · rintro ⟨-, h⟩
        exact absurd h (List.cons_ne_nil c cs)
  | cons x l' =>
    simp only [readinto, List.take_eq_nil_iff]
    constructor
    · rintro (h0 | hcnil)
      · omega
      · exact absurd hcnil (List.cons_ne_nil x l')
    · rintro ⟨h, -⟩
      exact absurd h (List.cons_ne_nil x l')

/-- Draining the adapter (pulling until a 0-byte read) returns exactly the
buffered leftover followed by all remaining chunks, provided chunks are
non-empty, the capacity is positive, and the fuel covers the total byte
count. -/
theorem drainStream_concat (n : Nat) (hn : 1 ≤ n) :
    ∀ (fuel : Nat) (st : IteratorStream), (∀ c ∈ st.chunks, c ≠ []) →
      st.leftover.length + (st.chunks.map List.length).sum ≤ fuel →
      drainStream n st fuel = st.leftover ++ st.chunks.flatten := by
  intro fuel
  induction fuel with
  | zero =>
    intro st hc hm
    obtain ⟨lo, ch⟩ := st
    dsimp only at hc hm ⊢
    have hlo : lo = [] := by
      rw [← List.length_eq_zero]
      omega
    have hch : ch = [] := by
      cases ch with
      | nil => rfl
      | cons c cs =>
        have : c = [] := by
          rw [← List.length_eq_zero]
          simp only [List.map_cons, List.sum_cons] at hm
          omega
        exact absurd this (hc c (List.mem_cons_self c cs))
    subst hlo hch
    rfl
  | succ fuel ih =>
    intro st hc hm
    obtain ⟨lo, ch⟩ := st
    dsimp only at hc hm ⊢
    cases lo with
    | nil =>
      cases ch with
      | nil => rfl
      | cons c cs =>
        have hcne : c ≠ [] := hc c (List.mem_cons_self c cs)
        have htake : ¬ c.take n = [] := by
          rw [List.take_eq_nil_iff]
          rintro (h0 | h)
          · omega
          · exact hcne h
        show (if (readinto ⟨[], c :: cs⟩ n).1 = [] then []
          else (readinto ⟨[], c :: cs⟩ n).1 ++
            drainStream n (readinto ⟨[], c :: cs⟩ n).2 fuel) = _
        simp only [readinto]
        rw [if_neg htake]
        rw [ih ⟨c.drop n, cs⟩ (fun d hd => hc d (List.mem_cons_of_mem c hd))
          (by
            simp only [List.length_drop, List.map_cons, List.sum_cons] at hm ⊢
            have : 1 ≤ c.length := List.length_pos.mpr hcne
            omega)]
        show c.take n ++ (c.drop n ++ cs.flatten) = [] ++ (c :: cs).flatten
        rw [← List.append_assoc, List.take_append_drop]
        simp
    | cons x l' =>
      have htake : ¬ (x :: l').take n = [] := by
        rw [List.take_eq_nil_iff]
        rintro (h0 | h)
        · omega
        · exact List.cons_ne_nil x l' h
      show (if (readinto ⟨x :: l', ch⟩ n).1 = [] then []
        else (readinto ⟨x :: l', ch⟩ n).1 ++
          drainStream n (readinto ⟨x :: l', ch⟩ n).2 fuel) = _
      simp only [readinto]
      rw [if_neg htake]
      rw [ih ⟨(x :: l').drop n, ch⟩ hc
        (by
          simp only [List.length_drop, List.length_cons] at hm ⊢
          omega)]
      show (x :: l').take n ++ ((x :: l').drop n ++ ch.flatten) =
        (x :: l') ++ ch.flatten
      rw [← List.append_assoc, List.take_append_drop]

/-- Counterexample for C8 as stated: an empty chunk in the sequence makes
`readinto` return 0 bytes even though the underlying sequence is not
exhausted, so 0 does not reliably signal end-of-data. -/
theorem C8_zero_read_not_eof :
    (readinto ⟨[], [[]]⟩ 1).1 = [] ∧
    (IteratorStream.mk [] [[]]).chunks ≠ [] := by
  exact ⟨rfl, by decide⟩

/-- Claim C8 (amended): each pull returns between 0 and N bytes and
buffers the unconsumed remainder; provided every chunk is non-empty and
the capacity N is at least 1, a 0-byte read happens exactly when the
sequence is exhausted with no buffered remainder, and draining the stream
returns the concatenation of the remaining bytes (leftover then chunks). -/
theorem C8_adapter_contract :
    (∀ (st : IteratorStream) (n : Nat), (readinto st n).1.length ≤ n) ∧
    (∀ (st : IteratorStream) (n : Nat), 1 ≤ n →
      (∀ c ∈ st.chunks, c ≠ []) →
      ((readinto st n).1 = [] ↔ st.leftover = [] ∧ st.chunks = [])) ∧
    (∀ (n fuel : Nat) (st : IteratorStream), 1 ≤ n →
      (∀ c ∈ st.chunks, c ≠ []) →
      st.leftover.length + (st.chunks.map List.length).sum ≤ fuel →
      drainStream n st fuel = st.leftover ++ st.chunks.flatten) :=
  ⟨readinto_length_le, readinto_zero_iff,
   fun n fuel st hn hc hm => drainStream_concat n hn fuel st hc hm⟩

/-- Witness for C8: draining a concrete two-chunk stream with capacity 2
returns the concatenation of the chunks. -/
theorem C8_adapter_witness :
    drainStream 2 ⟨[], [[5, 6, 7], [8]]⟩ 4 =
      ([] : List Nat) ++ ([[5, 6, 7], [8]] : List (List Nat)).flatten :=
  C8_adapter_contract.2.2 2 4 ⟨[], [[5, 6, 7], [8]]⟩ (by decide) (by decide)
    (by decide)

end Voleur
